import Mathlib

/-!
Verification of the `inat` sync utility (Rust) against its natural-language
specification.  The Rust sources are shallowly embedded: `serde_json` values
become the inductive `Json`, `serde_json::Map` becomes an association list
with map semantics, fallible Rust functions returning `Result<T, Error>`
become Lean functions into `Except Err T`, and `u64` arithmetic is `Nat`
with explicit reduction modulo `2 ^ 64` where wrap-around can occur.
File I/O and the HTTP transport are external collaborators; they are
modelled as explicit inputs (a response record, an optional file content)
and outputs (a list of cache writes).
-/

namespace Inat

/-- The error taxonomy, following the variants of `ApiError` in `error.rs`
that the embedded functions construct (`bad_status`, `internal` and
`corrupt_cache` are thin constructors around these variants). -/
inductive Err where
  | badStatus (status : Nat) (msg : String)
  | missingHeader (name : String)
  | badContentType (ct : String)
  | responseError (msg : String)
  | serdeJson (msg : String)
  | serdeYaml (msg : String)
  | internalErr (msg : String)
  | corruptCache (msg : String)
deriving Repr, DecidableEq

/-- `serde_json::Value`: JSON values.  Numbers are modelled as integers,
which covers every numeric value the embedded code inspects (`as_u64`
succeeds only on unsigned integers that fit in 64 bits). -/
inductive Json where
  | null : Json
  | bool (b : Bool) : Json
  | num (n : Int) : Json
  | str (s : String) : Json
  | arr (items : List Json) : Json
  | obj (fields : List (String × Json)) : Json

/-- `serde_json::Map<String, Value>`: modelled as an association list with
unique keys, ordered; `get`, `insert` and `remove` below have exactly the
map semantics the Rust code relies on. -/
abbrev JsonObj := List (String × Json)

/-- `Map::get`: value of the first entry with the given key. -/
def mapGet (m : JsonObj) (key : String) : Option Json :=
  match m with
  | [] => none
  | (k, v) :: rest => if k = key then some v else mapGet rest key

/-- `Map::insert`: replace the value of an existing key in place, otherwise
append a new entry. -/
def mapInsert (m : JsonObj) (key : String) (v : Json) : JsonObj :=
  match m with
  | [] => [(key, v)]
  | (k, w) :: rest =>
    if k = key then (k, v) :: rest else (k, w) :: mapInsert rest key v

/-- `Map::remove`: drop every entry with the given key (with unique keys,
the single one). -/
def mapRemove (m : JsonObj) (key : String) : JsonObj :=
  match m with
  | [] => []
  | (k, v) :: rest =>
    if k = key then mapRemove rest key else (k, v) :: mapRemove rest key

theorem mapGet_mapInsert_self (m : JsonObj) (key : String) (v : Json) :
    mapGet (mapInsert m key v) key = some v := by
  induction m with
  | nil => simp [mapInsert, mapGet]
  | cons hd tl ih =>
    obtain ⟨k, w⟩ := hd
    by_cases h : k = key <;> simp [mapInsert, mapGet, h, ih]

theorem mapGet_mapInsert_ne (m : JsonObj) (key key' : String) (v : Json)
    (h : key ≠ key') : mapGet (mapInsert m key v) key' = mapGet m key' := by
  induction m with
  | nil => simp [mapInsert, mapGet, h]
  | cons hd tl ih =>
    obtain ⟨k, w⟩ := hd
    by_cases hk : k = key
    · subst hk
      simp [mapInsert, mapGet, h]
    · by_cases hk' : k = key' <;>
        simp [mapInsert, mapGet, hk, hk', Ne.symm h, ih]

theorem mapGet_mapRemove_self (m : JsonObj) (key : String) :
    mapGet (mapRemove m key) key = none := by
  induction m with
  | nil => simp [mapRemove, mapGet]
  | cons hd tl ih =>
    obtain ⟨k, v⟩ := hd
    by_cases h : k = key <;> simp [mapRemove, mapGet, h, ih]

theorem mapGet_mapRemove_ne (m : JsonObj) (key key' : String)
    (h : key ≠ key') : mapGet (mapRemove m key) key' = mapGet m key' := by
  induction m with
  | nil => simp [mapRemove, mapGet]
  | cons hd tl ih =>
    obtain ⟨k, v⟩ := hd
    by_cases hk : k = key
    · subst hk
      simp [mapRemove, mapGet, h, Ne.symm h, ih]
    · by_cases hk' : k = key' <;>
        simp [mapRemove, mapGet, hk, hk', Ne.symm h, ih]

/-- An entity table (`HashMap<u64, JsonMap>` in the Rust code), as an
association list keyed by id; `tableInsert` is last-write-wins like
`HashMap::insert`. -/
abbrev Table := List (Nat × JsonObj)

/-- `HashMap::get`. -/
def tableGet (t : Table) (id : Nat) : Option JsonObj :=
  match t with
  | [] => none
  | (k, v) :: rest => if k = id then some v else tableGet rest id

/-- `HashMap::insert`: replace an existing entry, otherwise append. -/
def tableInsert (t : Table) (id : Nat) (obj : JsonObj) : Table :=
  match t with
  | [] => [(id, obj)]
  | (k, w) :: rest =>
    if k = id then (k, obj) :: rest else (k, w) :: tableInsert rest id obj

theorem tableGet_tableInsert_self (t : Table) (id : Nat) (obj : JsonObj) :
    tableGet (tableInsert t id obj) id = some obj := by
  induction t with
  | nil => simp [tableInsert, tableGet]
  | cons hd tl ih =>
    obtain ⟨k, w⟩ := hd
    by_cases h : k = id <;> simp [tableInsert, tableGet, h, ih]

theorem tableGet_tableInsert_ne (t : Table) (id id' : Nat) (obj : JsonObj)
    (h : id ≠ id') : tableGet (tableInsert t id obj) id' = tableGet t id' := by
  induction t with
  | nil => simp [tableInsert, tableGet, h]
  | cons hd tl ih =>
    obtain ⟨k, w⟩ := hd
    by_cases hk : k = id
    · subst hk
      simp [tableInsert, tableGet, h]
    · by_cases hk' : k = id' <;>
        simp [tableInsert, tableGet, hk, hk', Ne.symm h, ih]

/-! ### `api.rs`: the conditional-fetch transport layer -/

/-- `2 ^ 64`, the modulus of Rust `u64` arithmetic. -/
def U64MOD : Nat := 2 ^ 64

/-- `Value::get` on a JSON value: field lookup on objects, `None` on
everything else. -/
def jsonGet (v : Json) (key : String) : Option Json :=
  match v with
  | .obj fields => mapGet fields key
  | _ => none

/-- `Value::as_u64`: defined exactly on unsigned integers below `2 ^ 64`. -/
def asU64 (v : Json) : Option Nat :=
  match v with
  | .num n => if 0 ≤ n ∧ n < (U64MOD : Int) then some n.toNat else none
  | _ => none

/-- The parsed JSON envelope `ApiResponse` of `api.rs`. -/
structure ApiResponse where
  page : Option Nat
  per_page : Option Nat
  total_results : Option Nat
  results : Option (List Json)
  status : Option Nat
  error : Option String

/-- One HTTP exchange, seen from the fetcher: the transport (reqwest) and
the header/JSON parsers (httpdate, serde_json) are external collaborators,
so the response carries their already-parsed outputs.  `dateHdr` is the
`Date` header as seconds (absent = header missing), `ageHdr` the `Age`
header, `body` the parsed JSON envelope (`none` = malformed JSON), and
`errBody` the `error` field that `extract_error` in `error.rs` would find
in the raw body text `rawBody`. -/
structure HttpResponse where
  status : Nat
  contentType : Option String
  dateHdr : Option Int
  ageHdr : Option Nat
  etagHdr : Option String
  body : Option ApiResponse
  errBody : Option String
  rawBody : String

/-- `StatusCode::is_success`: 2xx. -/
def statusIsSuccess (s : Nat) : Bool := decide (200 ≤ s ∧ s ≤ 299)

/-- `StatusCode::from_u16` succeeds: three-digit codes. -/
def statusCodeValid (s : Nat) : Bool := decide (100 ≤ s ∧ s ≤ 999)

/-- `extract_error` in `error.rs`: the body's `error` field if the body
parses as an error envelope, the raw body text otherwise. -/
def extract_error (r : HttpResponse) : String :=
  r.errBody.getD r.rawBody

/-- Whitespace as `str::trim` sees it on header values (header values are
ASCII; the full Unicode white-space class coincides with this on them). -/
def isHeaderSpace (c : Char) : Bool :=
  c = ' ' || c = '\t' || c = '\n' || c = '\r'

/-- `str::trim` on a character list. -/
def trimChars (cs : List Char) : List Char :=
  ((cs.dropWhile isHeaderSpace).reverse.dropWhile isHeaderSpace).reverse

/-- `str::split(';')`: always at least one part; `"a;b"` gives two. -/
def splitSemi (cs : List Char) : List (List Char) :=
  match cs with
  | [] => [[]]
  | c :: rest =>
    let r := splitSemi rest
    if c = ';' then [] :: r
    else
      match r with
      | [] => [[c]]
      | p :: ps => (c :: p) :: ps

/-- `ensure_json` in `api.rs` (lines 261–278): lower-case and trim the
content-type header value, split on `;` and trim the parts; part 0 must be
`application/json` and part 1, when present, must be `charset=utf-8`;
parts are compared as character lists.  (A missing header is a
`MissingHeader` error; the non-UTF-8 `to_str` failure is not modelled
since Lean strings are always valid Unicode; `to_lowercase` agrees with
`Char.toLower` on header values.) -/
def ensure_json (contentType : Option String) : Except Err Unit :=
  match contentType with
  | none => .error (.missingHeader "content-type")
  | some raw =>
    let ct := (trimChars raw.data).map Char.toLower
    let parts := (splitSemi ct).map trimChars
    if (parts.length > 0 ∧ parts.getD 0 [] ≠ "application/json".data)
        ∨ (parts.length > 1 ∧ parts.getD 1 [] ≠ "charset=utf-8".data) then
      .error (.badContentType (String.mk ct))
    else
      .ok ()

/-- `ensure_ok` in `api.rs`: an embedded non-success status/error pair in
the envelope is fatal despite a successful transport status. -/
def ensure_ok (res : ApiResponse) : Except Err Unit :=
  let checkErrField : Except Err Unit :=
    match res.error with
    | some e => .error (.responseError e)
    | none => .ok ()
  match res.status with
  | some s =>
    if statusCodeValid s && ! statusIsSuccess s then
      .error (.badStatus s (res.error.getD ""))
    else checkErrField
  | none => checkErrField

/-- The response metadata `extract_header` collects into a YAML mapping:
the true resource timestamp (`Date` minus `Age`) plus the etag. -/
structure RespHeader where
  date : Int
  etag : Option String
deriving Repr, DecidableEq

/-- `extract_header` in `api.rs`: `Date` header required; subtract the
`Age` header when present; capture the etag when present. -/
def extract_header (r : HttpResponse) : Except Err RespHeader :=
  match r.dateHdr with
  | none => .error (.missingHeader "date")
  | some d =>
    let ts : Int := match r.ageHdr with
      | some age => d - age
      | none => d
    .ok { date := ts, etag := r.etagHdr }

/-- `fetch` in `api.rs` (lines 244–259): one HTTP exchange.  Not-modified
(304) is the cache-hit outcome `none`; any other non-success status is a
fatal `BadStatus` error; a success is validated (content type, header
metadata, envelope) and returned. -/
def fetch (r : HttpResponse) : Except Err (Option (RespHeader × ApiResponse)) :=
  if ! statusIsSuccess r.status then
    if r.status = 304 then .ok none
    else .error (.badStatus r.status (extract_error r))
  else do
    ensure_json r.contentType
    let header ← extract_header r
    let body ← match r.body with
      | some b => Except.ok b
      | none => Except.error (Err.serdeJson "invalid json body")
    ensure_ok body
    .ok (some (header, body))

/-- The `expect_prop!` macro of `api.rs`. -/
def expectProp {α : Type} (field : Option α) (name : String) : Except Err α :=
  match field with
  | some v => .ok v
  | none => .error (.internalErr ("missing: " ++ name))

/-- `is_last_page` in `api.rs` (lines 395–401): the page is last when
`(total_results + per_page - 1) / per_page == page`.  The `u64` sum and
decrement wrap modulo `2 ^ 64` (release-build semantics); `per_page = 0`
makes the Rust division panic, which has no Lean counterpart (`Nat`
division by zero is 0), so theorems below assume `0 < per_page`. -/
def is_last_page (res : ApiResponse) : Except Err Bool := do
  let page ← expectProp res.page "page"
  let per_page ← expectProp res.per_page "per_page"
  let total_results ← expectProp res.total_results "total_results"
  .ok (decide
    ((((total_results + per_page) % U64MOD + (U64MOD - 1)) % U64MOD) / per_page
      = page))

/-- `expect_results` in `api.rs`. -/
def expect_results (res : ApiResponse) : Except Err (List Json) :=
  match res.results with
  | some r => .ok r
  | none => .error (.internalErr "no results")

/-- `extract_ids` in `api.rs` (lines 429–436): read the numeric `id` field
of every result. -/
def extract_ids (res : ApiResponse) : Except Err (List Nat) := do
  let results ← expect_results res
  results.mapM (fun val =>
    match jsonGet val "id" with
    | none => Except.error (Err.internalErr "missing id")
    | some v =>
      match asU64 v with
      | none => Except.error (Err.internalErr "id is not u64")
      | some id => Except.ok id)

/-- The `check_prop!` macro of `api.rs`: a present field must equal the
expected value. -/
def checkProp (field : Option Nat) (name : String) (expected : Nat) :
    Except Err Unit :=
  match field with
  | some v =>
    if v = expected then .ok ()
    else .error (.internalErr ("unexpected " ++ name))
  | none => .ok ()

/-- `extract_single_value` in `api.rs`: a single-item envelope. -/
def extract_single_value (res : ApiResponse) : Except Err Json := do
  checkProp res.page "page" 1
  checkProp res.per_page "per_page" 1
  checkProp res.total_results "total_results" 1
  let results ← expect_results res
  match results.head? with
  | some v => .ok v
  | none => .error (.internalErr "empty results array")

/-! ### `api.rs`: the cache store -/

/-- The first document of a cache file (`CacheHeader` in `api.rs`): a
required timestamp and an optional etag.  The timestamp is kept as its
RFC3339 text; date parsing is external (chrono). -/
structure CacheHeader where
  date : String
  etag : Option String
deriving Repr, DecidableEq

/-- `CacheHeader::deserialize` on a YAML document (YAML mappings are
modelled with the same `Json` type): requires a string `date`, accepts an
optional string `etag`. -/
def parseCacheHeader (doc : Json) : Except Err CacheHeader :=
  match doc with
  | .obj fields =>
    match mapGet fields "date" with
    | some (.str d) =>
      match mapGet fields "etag" with
      | some (.str e) => .ok ⟨d, some e⟩
      | some _ => .error (.serdeYaml "etag is not a string")
      | none => .ok ⟨d, none⟩
    | _ => .error (.serdeYaml "missing or invalid date")
  | _ => .error (.serdeYaml "header is not a mapping")

/-- `lookup_cache` in `api.rs` (lines 370–386).  The input is the cache
file's parsed document stream, `none` meaning `File::open` failed for any
reason: that case is the no-cache success outcome.  A file with fewer
than two documents is corrupt. -/
def lookup_cache (file : Option (List Json)) :
    Except Err (Option (CacheHeader × Json)) :=
  match file with
  | none => .ok none
  | some [] => .error (.corruptCache "contains no document")
  | some (h :: rest) => do
    let header ← parseCacheHeader h
    match rest with
    | d :: _ => .ok (some (header, d))
    | [] => .error (.corruptCache "contains only one document")

/-- The per-id cache record of `api.rs` (`Cache`). -/
structure Cache where
  header : CacheHeader
  id : Nat
deriving Repr, DecidableEq

/-- `lookup_cache_id` in `api.rs` (lines 340–352): a cached entity must
carry a numeric `id`. -/
def lookup_cache_id (file : Option (List Json)) : Except Err (Option Cache) :=
  match lookup_cache file with
  | .error e => .error e
  | .ok none => .ok none
  | .ok (some (header, data)) =>
    match data with
    | .obj fields =>
      match mapGet fields "id" with
      | none => .error (.corruptCache "missing id")
      | some v =>
        match asU64 v with
        | some id => .ok (some ⟨header, id⟩)
        | none => .error (.corruptCache "id is not u64")
    | _ => .error (.serdeYaml "data is not a mapping")

/-- The conditional request headers `fetch_user` in `api_users.rs` attaches
(lines 57–63): `If-Modified-Since` from the cached timestamp and
`If-None-Match` from the cached etag, both only when a prior cache record
exists.  (`fmt_http_date` rendering is external; the date text is carried
through.) -/
def conditionalHeaders (cache : Option CacheHeader) : List (String × String) :=
  match cache with
  | none => []
  | some c =>
    ("if-modified-since", c.date) ::
      (match c.etag with
      | some e => [("if-none-match", e)]
      | none => [])

/-! ### Cache writes and the on-disk store -/

/-- One cache-file write performed by `write_cache` in `api.rs`: the
target path, the response-header document and the data document. -/
structure CacheWrite where
  path : String
  header : RespHeader
  data : Json

/-- The on-disk cache, path to (header document, data document).  A
`write_cache` call creates or wholly overwrites one file. -/
abbrev FileSys := List (String × (RespHeader × Json))

/-- `File::create` then write: create or overwrite the file at `p`. -/
def fsInsert (fs : FileSys) (p : String) (v : RespHeader × Json) : FileSys :=
  match fs with
  | [] => [(p, v)]
  | (q, w) :: rest =>
    if q = p then (q, v) :: rest else (q, w) :: fsInsert rest p v

/-- Read the file at `p`. -/
def fsGet (fs : FileSys) (p : String) : Option (RespHeader × Json) :=
  match fs with
  | [] => none
  | (q, w) :: rest => if q = p then some w else fsGet rest p

/-- Apply a list of cache writes in order. -/
def applyWrites (fs : FileSys) (ws : List CacheWrite) : FileSys :=
  ws.foldl (fun fs w => fsInsert fs w.path (w.header, w.data)) fs

theorem fsGet_fsInsert_self (fs : FileSys) (p : String) (v : RespHeader × Json) :
    fsGet (fsInsert fs p v) p = some v := by
  induction fs with
  | nil => simp [fsInsert, fsGet]
  | cons hd tl ih =>
    obtain ⟨q, w⟩ := hd
    by_cases h : q = p <;> simp [fsInsert, fsGet, h, ih]

theorem fsGet_fsInsert_ne (fs : FileSys) (p p' : String) (v : RespHeader × Json)
    (h : p ≠ p') : fsGet (fsInsert fs p v) p' = fsGet fs p' := by
  induction fs with
  | nil => simp [fsInsert, fsGet, h]
  | cons hd tl ih =>
    obtain ⟨q, w⟩ := hd
    by_cases hq : q = p
    · subst hq
      simp [fsInsert, fsGet, h]
    · by_cases hq' : q = p' <;>
        simp [fsInsert, fsGet, hq, hq', Ne.symm h, ih]

/-! ### `extract_id`, modelled from the spec -/

/-- Modelled from the spec: `extract_id` is imported from `api.rs` by
`api_users.rs`, `api_observations.rs` and `normalise.rs`, but its
definition is not part of this snapshot of `api.rs`.  Per the spec, an
Entity "must contain a unique numeric `id`" and "every extracted
sub-object must carry a numeric id or extraction fails": read the `id`
field as `u64`, failing otherwise (mirroring the neighbouring in-snapshot
reader `extract_ids`, which maps `val.get("id")` then `as_u64` with the
same two failure messages). -/
def extract_id (v : Json) : Except Err Nat :=
  match jsonGet v "id" with
  | none => .error (.internalErr "missing id")
  | some w =>
    match asU64 w with
    | some id => .ok id
    | none => .error (.internalErr "id is not u64")

/-- `extract_id` applied to a field map (`&JsonMap` receiver). -/
def extractIdObj (o : JsonObj) : Except Err Nat :=
  extract_id (.obj o)

/-! ### `api_users.rs`: `sync_user` -/

/-- Cache path of a user entity. -/
def userCachePath (id : Nat) : String := "users/" ++ toString id ++ ".yaml"

/-- `sync_user` in `api_users.rs` (lines 18–49), as a function of the prior
cache lookup result and the HTTP response to the conditional fetch.  On a
cache hit (`fetch` returns `none`) the cached id is returned and nothing is
written; otherwise the fetched user is validated and one cache write is
produced.  Login-symlink maintenance is an external collaborator and not
modelled. -/
def sync_user (cached : Option Cache) (r : HttpResponse) :
    Except Err (Nat × List CacheWrite) :=
  match fetch r with
  | .error e => .error e
  | .ok none =>
    match cached with
    | some c => .ok (c.id, [])
    | none => .error (.internalErr "user cache missing id")
  | .ok (some (header, res)) =>
    match extract_single_value res with
    | .error e => .error e
    | .ok body =>
      match extract_id body with
      | .error e => .error e
      | .ok id =>
        match jsonGet body "login" with
        | none => .error (.internalErr "user login not found")
        | some (.str _) => .ok (id, [⟨userCachePath id, header, body⟩])
        | some _ => .error (.internalErr "user login was not a string")

/-! ### `api_observations.rs`: the batch fetch-and-write stage -/

/-- Cache path of an observation entity. -/
def obsCachePath (id : Nat) : String := "observations/" ++ toString id ++ ".yaml"

/-- The final write loop of `sync_observations` (lines 122–130): write one
cache file per result, keyed by the result's own id, stopping at the first
result whose id extraction fails (the `?` operator aborts the loop; writes
already performed remain).  Returns the file system after the loop and the
error, if any. -/
def writeResults (header : RespHeader) (results : List Json) (fs : FileSys) :
    FileSys × Option Err :=
  match results with
  | [] => (fs, none)
  | r :: rest =>
    match extract_id r with
    | .error e => (fs, some e)
    | .ok id => writeResults header rest (fsInsert fs (obsCachePath id) (header, r))

/-- `sync_observations` in `api_observations.rs` (lines 92–133): one
batched fetch for the whole chunk of ids, then a per-result write loop.
The normalization passes that run between the fetch and the write loop
write other entity kinds and only rewrite embedded objects to ids inside
each result; they are embedded separately below and elided here, where
only the observation files are at stake. -/
def sync_observations (r : HttpResponse) (fs : FileSys) : FileSys × Option Err :=
  match fetch r with
  | .error e => (fs, some e)
  | .ok none => (fs, some (.internalErr "observations: no response"))
  | .ok (some (header, res)) =>
    match expect_results res with
    | .error e => (fs, some e)
    | .ok results => writeResults { header with etag := none } results fs

/-! ### `api_observations.rs`: the id-listing cursor (`sync_user_observations`) -/

/-- The accumulation step of the cursor loop in `sync_user_observations`
(lines 50–76), run over a sequence of page responses: each page's ids are
read with `extract_ids` and appended (`ids.extend_from_slice`).  The
`id_above` parameter of the next request is the current accumulated list's
last element, which is why the hypotheses of the theorems below speak of
`acc.getLast?`. -/
def idListingRun (init : List Nat) (resps : List ApiResponse) :
    Except Err (List Nat) :=
  match resps with
  | [] => .ok init
  | r :: rest =>
    match extract_ids r with
    | .error e => .error e
    | .ok ids => idListingRun (init ++ ids) rest

/-- The keyset-pagination contract the `order=asc`, `order_by=id`,
`id_above=last` query promises for one run: every page's ids parse, are
strictly ascending, and strictly exceed the `id_above` value the request
carried (the last id accumulated so far). -/
def goodListing : List Nat → List ApiResponse → Prop
  | _, [] => True
  | acc, r :: rest =>
    ∃ ids, extract_ids r = .ok ids ∧
      List.Chain' (· < ·) ids ∧
      (∀ x ∈ ids, ∀ l ∈ acc.getLast?, l < x) ∧
      goodListing (acc ++ ids) rest

/-- The spec's worked example server for the page-cursor: 45 results,
pages of 20, page `k` carrying ids `(k-1)*20+1 .. min (k*20) 45` and
reporting `page = k`, `per_page = 20`, `total_results = 45`. -/
def scenarioRes (k : Nat) : ApiResponse :=
  { page := some k
    per_page := some 20
    total_results := some 45
    results := some
      ((((List.range 45).map (· + 1)).drop ((k - 1) * 20) |>.take 20).map
        (fun i => Json.obj [("id", Json.num (Int.ofNat i))]))
    status := none
    error := none }

/-- The cursor loop of `sync_user_observations` against `scenarioRes`,
with fuel: fetch a page, test `is_last_page`, extend the ids, stop on the
last page.  Returns the accumulated ids and the number of the page the
loop stopped at (= the number of pages fetched, pages being numbered from
1). -/
def cursorCount : Nat → Nat → List Nat → Except Err (List Nat × Nat)
  | 0, _, _ => .error (.internalErr "out of fuel")
  | fuel + 1, k, ids =>
    match is_last_page (scenarioRes k) with
    | .error e => .error e
    | .ok isLast =>
      match extract_ids (scenarioRes k) with
      | .error e => .error e
      | .ok newIds =>
        if isLast then .ok (ids ++ newIds, k)
        else cursorCount fuel (k + 1) (ids ++ newIds)

/-! ### `normalise.rs`: the normalization primitives -/

/-- `extract_object` in `normalise.rs` (lines 436–457): if `key` holds an
embedded object, clone it, read its numeric id, rewrite the parent's field
to hold the id, drop a redundant `<key>_id` field, and return the (id,
object) pair; a `null` value is left in place; a non-object, non-null
value or an id-less object is an error.  Returns the extraction result
together with the updated parent (the Rust function mutates the parent in
place). -/
def extract_object (data : JsonObj) (key : String) :
    Except Err (Option (Nat × JsonObj) × JsonObj) :=
  match mapGet data key with
  | none => .ok (none, data)
  | some val =>
    match val with
    | .null => .ok (none, data)
    | .obj o =>
      match extractIdObj o with
      | .error e => .error e
      | .ok id =>
        .ok (some (id, o), mapRemove (mapInsert data key (.num id)) (key ++ "_id"))
    | _ => .error (.internalErr (key ++ ": not an object"))

/-- `extract_objects` in `normalise.rs` (lines 459–483): the array
analogue, rewriting the field to the ordered list of ids and dropping a
redundant `<key>_ids` field. -/
def extract_objects (data : JsonObj) (key : String) :
    Except Err (List (Nat × JsonObj) × JsonObj) :=
  match mapGet data key with
  | none => .ok ([], data)
  | some val =>
    match val with
    | .arr items =>
      match items.mapM (fun item =>
        match item with
        | Json.obj o => (extractIdObj o).map (fun id => (id, o))
        | _ => Except.error (Err.internalErr (key ++ " item: not an object"))) with
      | .error e => .error e
      | .ok pairs =>
        let ids := pairs.map (·.1)
        .ok (pairs,
          mapRemove
            (mapInsert data key (.arr (ids.map (fun i => Json.num (Int.ofNat i)))))
            (key ++ "_ids"))
    | _ => .error (.internalErr (key ++ ": not an array"))

/-- Insert a batch of extracted (id, object) pairs into a table, in order
(last-write-wins like the Rust `HashMap::insert` loop). -/
def tableInsertAll (t : Table) (pairs : List (Nat × JsonObj)) : Table :=
  pairs.foldl (fun acc p => tableInsert acc p.1 p.2) t

/-- One source table's round of the `extract_users!` macro in
`normalise.rs` (lines 81–91): for every item of the table, extract an
embedded `user` object into the users table.  The Rust loop visits
`HashMap` values in unspecified order and mutates in place; the model
visits the association list in order and rebuilds it. -/
def extractUsersFromTable (t : Table) (users : Table) :
    Except Err (Table × Table) :=
  match t with
  | [] => .ok ([], users)
  | (id, item) :: rest =>
    match extract_object item "user" with
    | .error e => .error e
    | .ok (res, item') =>
      let users' := match res with
        | some (uid, uobj) => tableInsert users uid uobj
        | none => users
      match extractUsersFromTable rest users' with
      | .error e => .error e
      | .ok (rest', users'') => .ok ((id, item') :: rest', users'')

/-! ### `normalise.rs`: `extract_annotations` and `extract_labels` -/

/-- The body of `extract_annotations` (lines 165–173) for one key
(`controlled_attribute` or `controlled_value`) of one annotation object:
extract the embedded controlled term, pull its `values` array into the
controlled-terms table, then record the (mutated) term itself. -/
def extractCtrlTermKey (ann : JsonObj) (ct : Table) (key : String) :
    Except Err (JsonObj × Table) :=
  match extract_object ann key with
  | .error e => .error e
  | .ok (none, ann') => .ok (ann', ct)
  | .ok (some (id, obj), ann') =>
    match extract_objects obj "values" with
    | .error e => .error e
    | .ok (vals, obj') =>
      .ok (ann', tableInsert (tableInsertAll ct vals) id obj')

/-- `extract_annotations` over one observation's `annotations` array: every
element must be an object; both controlled-term keys are processed.  (The
Rust code first checks all elements are objects, then mutates; on any
error the whole normalization run aborts and its tables are discarded, so
sequencing the check per element is observationally equal.) -/
def processAnnotationItems (items : List Json) (ct : Table) :
    Except Err (List Json × Table) :=
  match items with
  | [] => .ok ([], ct)
  | item :: rest =>
    match item with
    | .obj a =>
      match extractCtrlTermKey a ct "controlled_attribute" with
      | .error e => .error e
      | .ok (a1, ct1) =>
        match extractCtrlTermKey a1 ct1 "controlled_value" with
        | .error e => .error e
        | .ok (a2, ct2) =>
          match processAnnotationItems rest ct2 with
          | .error e => .error e
          | .ok (rest', ct') => .ok (Json.obj a2 :: rest', ct')
    | _ => .error (.internalErr "annotations item: not an object")

/-- `extract_annotations` (lines 152–183) for one observation: when an
`annotations` field is present it must be an array, whose elements are
processed in place. -/
def annotateObservation (obs : JsonObj) (ct : Table) :
    Except Err (JsonObj × Table) :=
  match mapGet obs "annotations" with
  | none => .ok (obs, ct)
  | some (.arr items) =>
    match processAnnotationItems items ct with
    | .error e => .error e
    | .ok (items', ct') => .ok (mapInsert obs "annotations" (.arr items'), ct')
  | some _ => .error (.internalErr "annotations: not an array")

/-- `extract_annotations` over the whole observations table. -/
def extractAnnotationsPass (obsTable : Table) (ct : Table) :
    Except Err (Table × Table) :=
  match obsTable with
  | [] => .ok ([], ct)
  | (id, obs) :: rest =>
    match annotateObservation obs ct with
    | .error e => .error e
    | .ok (obs', ct') =>
      match extractAnnotationsPass rest ct' with
      | .error e => .error e
      | .ok (rest', ct'') => .ok ((id, obs') :: rest', ct'')

/-- `extract_labels` in `normalise.rs` (lines 262–270), exactly as coded:
it iterates `self.cache.observations` — the observations table, not the
controlled-terms table — pulling any `labels` arrays found directly on
observations into the controlled-term-labels table. -/
def extractLabelsPass (obsTable : Table) (labels : Table) :
    Except Err (Table × Table) :=
  match obsTable with
  | [] => .ok ([], labels)
  | (id, obs) :: rest =>
    match extract_objects obs "labels" with
    | .error e => .error e
    | .ok (pairs, obs') =>
      match extractLabelsPass rest (tableInsertAll labels pairs) with
      | .error e => .error e
      | .ok (rest', labels') => .ok ((id, obs') :: rest', labels')

/-- The slice of `Normaliser::write` (lines 108–150) that the label claim
is about: the first-group pass `extract_annotations` (which populates the
controlled-terms table), then the second-group pass `extract_labels`.  The
other first-group passes that run in between never touch a `labels` field,
the controlled-terms table or the controlled-term-labels table, and are
the identity on the concrete inputs used below.  Returns (observations,
controlled_terms, controlled_term_labels). -/
def labelsPipeline (obsTable : Table) : Except Err (Table × Table × Table) :=
  match extractAnnotationsPass obsTable [] with
  | .error e => .error e
  | .ok (obs1, ct) =>
    match extractLabelsPass obs1 [] with
    | .error e => .error e
    | .ok (obs2, labels) => .ok (obs2, ct, labels)

/-! ### Concrete fixtures used by the claim theorems -/

/-- A rate-limited (429) response whose body carries an error message. -/
def rateLimited429 : HttpResponse :=
  { status := 429
    contentType := some "application/json"
    dateHdr := some 0
    ageHdr := none
    etagHdr := none
    body := none
    errBody := some "Too Many Requests"
    rawBody := "" }

/-- A not-modified (304) response to a conditional request. -/
def notModified304 : HttpResponse :=
  { status := 304
    contentType := none
    dateHdr := none
    ageHdr := none
    etagHdr := none
    body := none
    errBody := none
    rawBody := "" }

/-- A prior cache record for user 7, with etag "abc". -/
def cachedUser7 : Cache :=
  { header := { date := "2024-01-01T00:00:00+00:00", etag := some "abc" }
    id := 7 }

/-! ### C10 — open failure of a cache file is the no-cache success outcome -/

/-- C10: a cache lookup whose `File::open` fails for any reason (the
`none` input collapses every open error, exactly as the catch-all
`Err(_) => Ok(None)` arm in `lookup_cache` does) returns the no-cache
outcome as a success, in both `lookup_cache` and `lookup_cache_id`; the
caller then has no prior `CacheHeader`, so the subsequent fetch carries no
conditional headers — an unconditional full refetch. -/
theorem lookup_cache_open_error_is_no_cache :
    lookup_cache none = .ok none ∧
    lookup_cache_id none = .ok none ∧
    conditionalHeaders none = [] :=
  ⟨rfl, rfl, rfl⟩

/-! ### C1 — rate-limited responses -/

/-- C1 (counterexample): at the concrete rate-limited response
`rateLimited429`, `fetch` does not block and retry — it returns a fatal
`BadStatus` error carrying the server status and the embedded error
message, so in particular it never produces the successful result the
claim promises. -/
theorem fetch_rate_limited_counterexample :
    fetch rateLimited429 = .error (.badStatus 429 "Too Many Requests") ∧
    ∀ v, fetch rateLimited429 ≠ Except.ok v := by
  refine ⟨rfl, fun v h => ?_⟩
  rw [show fetch rateLimited429
      = .error (.badStatus 429 "Too Many Requests") from rfl] at h
  exact Except.noConfusion h

/-- C1 (amended): a rate-limited (429) response is handled like every
other non-success, non-304 status: `fetch` fails with a fatal bad-status
error carrying the server status and any embedded error message; no retry
delay is read and no retry occurs. -/
theorem fetch_rate_limited_is_fatal (r : HttpResponse) (h : r.status = 429) :
    fetch r = .error (.badStatus 429 (extract_error r)) := by
  simp [fetch, h, statusIsSuccess]

/-- C1 witness: the amended theorem at `rateLimited429`. -/
theorem fetch_rate_limited_is_fatal_witness :
    fetch rateLimited429 = .error (.badStatus 429 (extract_error rateLimited429)) :=
  fetch_rate_limited_is_fatal rateLimited429 rfl

/-! ### C8 — content-type validation -/

/-- The content-type acceptance rule as the spec words it: the header
"must equal `application/json`, optionally with a `charset=utf-8`
qualifier — any other value is fatal". -/
def specContentTypeOk (ct : String) : Bool :=
  ct = "application/json" || ct = "application/json; charset=utf-8" ||
    ct = "application/json;charset=utf-8"

/-- C8 (counterexample): `ensure_json` accepts a content-type value with a
third parameter after the charset token, which is not `application/json`
optionally qualified only by a charset token — the claim's "any other
value is rejected" is false at this input. -/
theorem ensure_json_counterexample :
    ensure_json (some "application/json; charset=utf-8; foo=bar") = .ok () ∧
    specContentTypeOk "application/json; charset=utf-8; foo=bar" = false := by
  exact ⟨rfl, by decide⟩

/-- C8 (amended): `ensure_json` accepts exactly those header values whose
trimmed, lower-cased, `;`-split parts have `application/json` as part 0
and, when a part 1 exists, `charset=utf-8` as part 1; parts beyond the
second are never inspected. -/
theorem ensure_json_characterisation (raw : String) :
    ensure_json (some raw) = .ok () ↔
      (((splitSemi ((trimChars raw.data).map Char.toLower)).map trimChars).length > 0 →
        ((splitSemi ((trimChars raw.data).map Char.toLower)).map trimChars).getD 0 []
          = "application/json".data) ∧
      (((splitSemi ((trimChars raw.data).map Char.toLower)).map trimChars).length > 1 →
        ((splitSemi ((trimChars raw.data).map Char.toLower)).map trimChars).getD 1 []
          = "charset=utf-8".data) := by
  simp only [ensure_json]
  split_ifs with h
  · refine iff_of_false (by simp) ?_
    intro hc
    rcases h with ⟨hl, hne⟩ | ⟨hl, hne⟩
    · exact hne (hc.1 hl)
    · exact hne (hc.2 hl)
  · push_neg at h
    exact iff_of_true rfl h

/-! ### C2 — last-page detection -/

/-- A page envelope carrying only the pagination metadata. -/
def mkPageRes (page per total : Nat) : ApiResponse :=
  { page := some page
    per_page := some per
    total_results := some total
    results := some []
    status := none
    error := none }

/-- The `u64` expression of `is_last_page` equals the exact ceiling
`(total + per - 1) / per` when the sum does not wrap. -/
theorem lastPageFormula_no_wrap (per total : Nat)
    (hu : total + per < U64MOD) (hpos : 0 < total + per) :
    (((total + per) % U64MOD + (U64MOD - 1)) % U64MOD) / per
      = (total + per - 1) / per := by
  have hU : 0 < U64MOD := by norm_num [U64MOD]
  have h1 : (total + per) % U64MOD = total + per := Nat.mod_eq_of_lt hu
  rw [h1]
  have he : total + per + (U64MOD - 1) = (total + per - 1) + U64MOD := by omega
  rw [he, Nat.add_mod_right, Nat.mod_eq_of_lt (by omega)]

/-- `(total + per - 1) / per = page` is the exact-ceiling characterisation:
the page covers the total and the previous page did not. -/
theorem ceil_eq_iff (page per total : Nat) (hper : 0 < per) (htot : 0 < total) :
    (total + per - 1) / per = page
      ↔ (total ≤ page * per ∧ (page - 1) * per < total) := by
  constructor
  · intro hdiv
    have hlt : total + per - 1 < (page + 1) * per := by
      have := (Nat.div_lt_iff_lt_mul hper).mp (by omega : (total + per - 1) / per < page + 1)
      exact this
    have hle : page * per ≤ total + per - 1 := by
      have := (Nat.le_div_iff_mul_le hper).mp (le_of_eq hdiv.symm)
      exact this
    have e1 : (page + 1) * per = page * per + per := by ring
    constructor
    · omega
    · cases page with
      | zero => simpa using htot
      | succ q =>
        have e2 : (q + 1) * per = q * per + per := by ring
        have e3 : q + 1 - 1 = q := rfl
        rw [e3]
        omega
  · rintro ⟨h1, h2⟩
    have hub : (total + per - 1) / per < page + 1 := by
      refine (Nat.div_lt_iff_lt_mul hper).mpr ?_
      have e1 : (page + 1) * per = page * per + per := by ring
      omega
    have hlb : page ≤ (total + per - 1) / per := by
      refine (Nat.le_div_iff_mul_le hper).mpr ?_
      cases page with
      | zero => omega
      | succ q =>
        have e2 : (q + 1) * per = q * per + per := by ring
        have e3 : q + 1 - 1 = q := rfl
        rw [e3] at h2
        omega
    omega

/-- C2 (counterexample): with `per_page = 20` and `total_results = 45`,
page 4 satisfies `page * per_page >= total_results` but `is_last_page`
reports it is not the last page — the claim's "exactly when" fails. -/
theorem is_last_page_counterexample :
    45 ≤ 4 * 20 ∧ is_last_page (mkPageRes 4 20 45) = .ok false :=
  ⟨by norm_num, rfl⟩

/-- C2 (amended): for a page envelope with positive `per_page` and
`total_results` (no `u64` wrap), `is_last_page` holds exactly when the
page is the exact ceiling page: `page * per_page >= total_results` AND the
previous page did not already cover the total,
`(page - 1) * per_page < total_results`.  And on the spec's worked
example (`per_page = 20`, `total_results = 45`, pages numbered from 1)
the cursor loop fetches exactly 3 pages, stopping on page 3 with all 45
ids accumulated. -/
theorem is_last_page_characterisation :
    (∀ page per total, 0 < per → 0 < total → total + per < U64MOD →
      (is_last_page (mkPageRes page per total) = .ok true
        ↔ (total ≤ page * per ∧ (page - 1) * per < total))) ∧
    cursorCount 10 1 [] = .ok ((List.range 45).map (· + 1), 3) := by
  constructor
  · intro page per total hper htot hu
    have hres : is_last_page (mkPageRes page per total)
        = .ok (decide ((((total + per) % U64MOD + (U64MOD - 1)) % U64MOD) / per
            = page)) := rfl
    rw [hres, lastPageFormula_no_wrap per total hu (by omega)]
    constructor
    · intro h
      have hb : decide ((total + per - 1) / per = page) = true :=
        (Except.ok.injEq _ _).mp h
      exact (ceil_eq_iff page per total hper htot).mp (of_decide_eq_true hb)
    · intro h
      have := (ceil_eq_iff page per total hper htot).mpr h
      simp [this]
  · rfl

/-- C2 witness: the characterisation at page 3, `per_page = 20`,
`total_results = 45`. -/
theorem is_last_page_characterisation_witness :
    is_last_page (mkPageRes 3 20 45) = .ok true
      ↔ (45 ≤ 3 * 20 ∧ (3 - 1) * 20 < 45) :=
  is_last_page_characterisation.1 3 20 45 (by norm_num) (by norm_num)
    (by norm_num [U64MOD])

/-! ### C5 — not-modified is a success and leaves the cache untouched -/

/-- C5: a conditional fetch answered with not-modified (304) makes
`sync_user` return the cached id as a success with an empty write list
(the `fetch` cache-hit outcome), and applying an empty write list leaves
every cache file byte-for-byte unchanged. -/
theorem sync_user_not_modified (c : Cache) (r : HttpResponse)
    (h304 : r.status = 304) :
    sync_user (some c) r = .ok (c.id, []) ∧
    ∀ fs : FileSys, applyWrites fs [] = fs := by
  constructor
  · simp [sync_user, fetch, h304, statusIsSuccess]
  · intro fs
    rfl

/-- C5 witness: cached user 7 (etag "abc") and a 304 response. -/
theorem sync_user_not_modified_witness :
    sync_user (some cachedUser7) notModified304 = .ok (cachedUser7.id, []) ∧
    ∀ fs : FileSys, applyWrites fs [] = fs :=
  sync_user_not_modified cachedUser7 notModified304 rfl

/-! ### C3 — object extraction -/

/-- The embedded user object of the spec's worked example. -/
def userObj7 : JsonObj := [("id", Json.num 7), ("login", Json.str "x")]

/-- An observation embedding that user, with a redundant `user_id`. -/
def obsEmbeddingUser : JsonObj :=
  [("id", Json.num 100), ("user", Json.obj userObj7), ("user_id", Json.num 7)]

/-- C3: whenever a parent's field holds an embedded object with a numeric
id, `extract_object` returns the id together with the full original
object (which the caller records in the target table), rewrites the
parent's field to hold just the id, and removes the redundant
`<field>_id` field.  On the spec's worked example, the users pass of
`extract_users!` leaves the observation's `user` field equal to 7 with no
`user_id` field, and the users table maps 7 to the full original user
object. -/
theorem extract_object_normalises (p : JsonObj) (key : String) (o : JsonObj)
    (id : Nat) (hkey : mapGet p key = some (.obj o))
    (hid : extractIdObj o = .ok id) :
    (extract_object p key
        = .ok (some (id, o), mapRemove (mapInsert p key (.num id)) (key ++ "_id")) ∧
      mapGet (mapRemove (mapInsert p key (.num id)) (key ++ "_id")) key
        = some (.num id) ∧
      mapGet (mapRemove (mapInsert p key (.num id)) (key ++ "_id")) (key ++ "_id")
        = none) ∧
    extractUsersFromTable [(100, obsEmbeddingUser)] []
      = .ok ([(100, [("id", Json.num 100), ("user", Json.num 7)])], [(7, userObj7)]) := by
  have hne : key ≠ key ++ "_id" := by
    intro he
    have hlen := congrArg String.length he
    rw [String.length_append] at hlen
    have h3 : ("_id" : String).length = 3 := rfl
    omega
  refine ⟨⟨?_, ?_, ?_⟩, rfl⟩
  · simp [extract_object, hkey, hid]
  · rw [mapGet_mapRemove_ne _ _ _ (Ne.symm hne), mapGet_mapInsert_self]
  · exact mapGet_mapRemove_self _ _

/-- C3 witness: the general part at the worked example itself. -/
theorem extract_object_normalises_witness :
    (extract_object obsEmbeddingUser "user"
        = .ok (some (7, userObj7),
            mapRemove (mapInsert obsEmbeddingUser "user" (.num 7)) "user_id") ∧
      mapGet (mapRemove (mapInsert obsEmbeddingUser "user" (.num 7)) "user_id") "user"
        = some (.num 7) ∧
      mapGet (mapRemove (mapInsert obsEmbeddingUser "user" (.num 7)) "user_id") "user_id"
        = none) ∧
    extractUsersFromTable [(100, obsEmbeddingUser)] []
      = .ok ([(100, [("id", Json.num 100), ("user", Json.num 7)])], [(7, userObj7)]) :=
  extract_object_normalises obsEmbeddingUser "user" userObj7 7 rfl rfl

/-! ### C4 — the batched write stage and its failure behaviour -/

/-- Batch results 1, 2, 4, 5 (each carrying its id) and a third result
with no id field, which makes its write-stage id extraction fail. -/
def o1 : Json := .obj [("id", Json.num 1)]

def o2 : Json := .obj [("id", Json.num 2)]

def obad : Json := .obj [("note", Json.str "no id here")]

def o4 : Json := .obj [("id", Json.num 4)]

def o5 : Json := .obj [("id", Json.num 5)]

/-- A response header fixture. -/
def hdr0 : RespHeader := { date := 0, etag := none }

/-- C4 (counterexample): in the batch `[o1, o2, obad, o4, o5]` where the
third result fails fatally at id extraction, the loop aborts at the `?`:
items 1 and 2 are cached and item 3's error is returned with no file for
item 3 — but, contrary to the claim, items 4 and 5 are NOT cached. -/
theorem sync_batch_counterexample :
    (writeResults hdr0 [o1, o2, obad, o4, o5] []).2
      = some (.internalErr "missing id") ∧
    fsGet (writeResults hdr0 [o1, o2, obad, o4, o5] []).1 (obsCachePath 1)
      = some (hdr0, o1) ∧
    fsGet (writeResults hdr0 [o1, o2, obad, o4, o5] []).1 (obsCachePath 2)
      = some (hdr0, o2) ∧
    fsGet (writeResults hdr0 [o1, o2, obad, o4, o5] []).1 (obsCachePath 3)
      = none ∧
    fsGet (writeResults hdr0 [o1, o2, obad, o4, o5] []).1 (obsCachePath 4)
      = none ∧
    fsGet (writeResults hdr0 [o1, o2, obad, o4, o5] []).1 (obsCachePath 5)
      = none :=
  ⟨rfl, rfl, rfl, rfl, rfl, rfl⟩

/-- C4 (amended): when the i-th result of a batch fails fatally at the
write stage, the results before it are cached successfully, the error is
returned by the batch call, the failing result gets no (partial) cache
file, the results after it are not written either, and cache files at
every other path — in particular prior cache data for other ids — are
untouched. -/
theorem writeResults_first_error (header : RespHeader) (front : List Json)
    (bad : Json) (rest : List Json) (fs : FileSys) (e : Err)
    (hfront : ∀ r ∈ front, ∃ id, extract_id r = .ok id)
    (hbad : extract_id bad = .error e) :
    ∃ fs',
      writeResults header (front ++ bad :: rest) fs = (fs', some e) ∧
      (∀ r ∈ front, ∀ id, extract_id r = .ok id →
        (fsGet fs' (obsCachePath id)).isSome) ∧
      (∀ p, (∀ r ∈ front, ∀ id, extract_id r = .ok id → p ≠ obsCachePath id) →
        fsGet fs' p = fsGet fs p) := by
  induction front generalizing fs with
  | nil =>
    refine ⟨fs, ?_, ?_, ?_⟩
    · simp [writeResults, hbad]
    · simp
    · intro p _
      rfl
  | cons r front ih =>
    obtain ⟨id0, hid0⟩ := hfront r (by simp)
    obtain ⟨fs', heq, hsome, hframe⟩ :=
      ih (fsInsert fs (obsCachePath id0) (header, r))
        (fun r' hr' => hfront r' (List.mem_cons_of_mem r hr'))
    refine ⟨fs', ?_, ?_, ?_⟩
    · simpa [writeResults, hid0] using heq
    · intro r' hr' id' hid'
      rcases List.mem_cons.mp hr' with hrr | hmem
      · subst hrr
        have hideq : id0 = id' := by
          rw [hid0] at hid'
          exact (Except.ok.injEq _ _).mp hid'
        subst hideq
        by_cases hc : ∀ r'' ∈ front, ∀ id'', extract_id r'' = .ok id'' →
            obsCachePath id0 ≠ obsCachePath id''
        · rw [hframe (obsCachePath id0) hc, fsGet_fsInsert_self]
          rfl
        · push_neg at hc
          obtain ⟨r'', hr'', id'', hid'', hpath⟩ := hc
          rw [hpath]
          exact hsome r'' hr'' id'' hid''
      · exact hsome r' hmem id' hid'
    · intro p hp
      have hp' : ∀ r'' ∈ front, ∀ id'', extract_id r'' = .ok id'' →
          p ≠ obsCachePath id'' := fun r'' hr'' id'' hid'' =>
        hp r'' (by simp [hr'']) id'' hid''
      rw [hframe p hp']
      exact fsGet_fsInsert_ne _ _ _ _
        (Ne.symm (hp r (by simp) id0 hid0))

/-- C4 witness: the amended theorem at the concrete batch
`[o1, o2] ++ obad :: [o4, o5]` over an empty cache. -/
theorem writeResults_first_error_witness :
    ∃ fs',
      writeResults hdr0 ([o1, o2] ++ obad :: [o4, o5]) []
        = (fs', some (.internalErr "missing id")) ∧
      (∀ r ∈ [o1, o2], ∀ id, extract_id r = .ok id →
        (fsGet fs' (obsCachePath id)).isSome) ∧
      (∀ p, (∀ r ∈ [o1, o2], ∀ id, extract_id r = .ok id → p ≠ obsCachePath id) →
        fsGet fs' p = fsGet ([] : FileSys) p) := by
  refine writeResults_first_error hdr0 [o1, o2] obad [o4, o5] []
    (.internalErr "missing id") ?_ rfl
  intro r hr
  rcases List.mem_cons.mp hr with rfl | hr
  · exact ⟨1, rfl⟩
  rcases List.mem_cons.mp hr with rfl | hr
  · exact ⟨2, rfl⟩
  · cases hr

/-! ### C7 — ids accumulated by the cursor are strictly ascending -/

/-- C7: over any id-listing run whose pages honour the keyset-pagination
request (`order=asc`, `id_above` = last accumulated id) — every page's
ids strictly ascending and strictly above the `id_above` value used to
request the page — the accumulated id list stays strictly ascending,
starting from any strictly ascending cached list; the run therefore
persists a strictly ascending `IdListingCache`. -/
theorem idListingRun_ascending (init : List Nat) (resps : List ApiResponse)
    (hinit : List.Chain' (· < ·) init) (hgood : goodListing init resps) :
    ∃ out, idListingRun init resps = .ok out ∧ List.Chain' (· < ·) out := by
  induction resps generalizing init with
  | nil => exact ⟨init, rfl, hinit⟩
  | cons r rest ih =>
    obtain ⟨ids, hex, hchain, habove, hrest⟩ := hgood
    have happ : List.Chain' (· < ·) (init ++ ids) := by
      refine List.Chain'.append hinit hchain ?_
      intro x hx y hy
      exact habove y (List.mem_of_mem_head? hy) x hx
    have hrun : idListingRun init (r :: rest) = idListingRun (init ++ ids) rest := by
      simp [idListingRun, hex]
    rw [hrun]
    exact ih (init ++ ids) happ hrest

/-- First page of the C7 witness run: ids 1 and 3. -/
def pageResp1 : ApiResponse :=
  { page := some 1
    per_page := some 2
    total_results := some 4
    results := some [.obj [("id", Json.num 1)], .obj [("id", Json.num 3)]]
    status := none
    error := none }

/-- Second page of the C7 witness run: ids 5 and 8, all above 3. -/
def pageResp2 : ApiResponse :=
  { page := some 2
    per_page := some 2
    total_results := some 4
    results := some [.obj [("id", Json.num 5)], .obj [("id", Json.num 8)]]
    status := none
    error := none }

/-- C7 witness: a two-page run from an empty cache. -/
theorem idListingRun_ascending_witness :
    ∃ out, idListingRun [] [pageResp1, pageResp2] = .ok out ∧
      List.Chain' (· < ·) out := by
  refine idListingRun_ascending [] [pageResp1, pageResp2] (by simp) ?_
  refine ⟨[1, 3], rfl, by norm_num [List.chain'_cons, List.chain'_singleton],
    by simp, ?_⟩
  refine ⟨[5, 8], rfl, by norm_num [List.chain'_cons, List.chain'_singleton],
    ?_, trivial⟩
  intro x hx l hl
  simp at hl
  subst hl
  rcases List.mem_cons.mp hx with rfl | hx
  · norm_num
  rcases List.mem_cons.mp hx with rfl | hx
  · norm_num
  · cases hx

/-! ### C6 — labels of controlled terms never reach their table -/

/-- A controlled-term label. -/
def labelObj2 : JsonObj := [("id", Json.num 2), ("value", Json.str "L")]

/-- A controlled term embedding one label. -/
def ctrlTerm1 : JsonObj :=
  [("id", Json.num 1), ("labels", Json.arr [Json.obj labelObj2])]

/-- An annotation holding that controlled term. -/
def annFixture : JsonObj :=
  [("id", Json.num 9), ("controlled_attribute", Json.obj ctrlTerm1)]

/-- An observation with that annotation. -/
def obsFixture : JsonObj :=
  [("id", Json.num 100), ("annotations", Json.arr [Json.obj annFixture])]

/-- The annotation after `extract_annotations`: term replaced by its id. -/
def annAfter : JsonObj := [("id", Json.num 9), ("controlled_attribute", Json.num 1)]

/-- The observation after the pipeline slice. -/
def obsAfter : JsonObj :=
  [("id", Json.num 100), ("annotations", Json.arr [Json.obj annAfter])]

/-- C6: `extract_labels` in `normalise.rs` scans the OBSERVATIONS table
rather than the controlled terms extracted from annotations, contradicting
the `NEEDS: annotations` ordering comment above its call site in
`Normaliser::write` (and the sibling implementation in
`api_observations.rs`, which does scan the extracted terms).  On an
observation whose annotation embeds a controlled term carrying a label,
the pipeline leaves the controlled-term-labels table empty and the label
still embedded inside the stored controlled term. -/
theorem labels_on_controlled_terms_lost :
    labelsPipeline [(100, obsFixture)]
      = .ok ([(100, obsAfter)], [(1, ctrlTerm1)], ([] : Table)) ∧
    mapGet ctrlTerm1 "labels" = some (Json.arr [Json.obj labelObj2]) :=
  ⟨rfl, rfl⟩

/-- C8 witness: the characterisation at the plain `application/json`. -/
theorem ensure_json_characterisation_witness :
    ensure_json (some "application/json") = .ok () ↔
      (((splitSemi ((trimChars "application/json".data).map Char.toLower)).map
          trimChars).length > 0 →
        ((splitSemi ((trimChars "application/json".data).map Char.toLower)).map
          trimChars).getD 0 [] = "application/json".data) ∧
      (((splitSemi ((trimChars "application/json".data).map Char.toLower)).map
          trimChars).length > 1 →
        ((splitSemi ((trimChars "application/json".data).map Char.toLower)).map
          trimChars).getD 1 [] = "charset=utf-8".data) :=
  ensure_json_characterisation "application/json"

end Inat
